import Mathlib

/-!
Verification development for the dizi music-player daemon (server side).

This file shallowly embeds the data model and the operations of the
playback core:

* `DiziPlaylist` and its operations, from
  `src/bin/server/playlist/impl_playlist.rs`;
* the library `Playlist` (list plus path set) and `DirlistPlaylist`, from
  `lib/dizi_lib/src/playlist.rs`;
* the server `Player` operations (`play`, `play_from_playlist`,
  `play_from_directory`, `set_volume`), from `src/server/audio/player.rs`;
* the advancement loop `process_done_song`, from `src/server/server.rs`;
* the realtime output callback of `stream_loop_f32`, from
  `src/server/audio/symphonia/decode.rs`;
* the request parser `ClientRequest::parse_str`, from
  `lib/dizi_lib/src/request/client.rs`.

Conventions of the embedding:

* Rust `Vec<T>` becomes `List T`; `usize` becomes `Nat`; `f32` scalars that
  are only stored, compared and linearly scaled become `ℚ`; `PathBuf`
  becomes `String`; `std::collections::HashSet<PathBuf>` becomes
  `Finset String`.
* A Rust operation that can panic (out-of-bounds `Vec` indexing) is
  embedded as an `Option`-returning function where `none` models the
  panic.
* Fallible operations that talk to the audio-worker thread take the
  worker's channel results as explicit parameters and return the
  `Result` together with the post-state.
* Randomness (`SliceRandom::shuffle`) is modelled by an explicit
  reordering function `rand : List Nat → List Nat`; theorems assume only
  that `rand` permutes its input.
-/

/-! ## Songs and the bin-server playlist (`DiziPlaylist`) -/

/-- A song entry of the bin-server playlist (`dizi::song::DiziSongEntry`);
only the identifying file path is relevant to the properties below. -/
structure DiziSongEntry where
  file_path : String
deriving DecidableEq

/-- The bin-server playlist: `contents` plus an independent play-`order`
permutation and an optional current position `order_index`
(`src/bin/server/playlist/DiziPlaylist`). -/
structure DiziPlaylist where
  contents : List DiziSongEntry
  order : List Nat
  order_index : Option Nat
deriving DecidableEq

/-- An element of the play order as returned by `current_song` and the
peek operations (`crate::traits::DiziPlaylistEntry`); fields as used in
`impl_playlist.rs`. -/
structure DiziPlaylistEntry where
  entry_index : Nat
  order_index : Nat
  entry : DiziSongEntry
deriving DecidableEq

namespace DiziPlaylist

/-- `DiziPlaylistTrait::len`: length of `contents`. -/
def len (p : DiziPlaylist) : Nat :=
  p.contents.length

/-- `DiziPlaylistTrait::is_empty`. -/
def is_empty (p : DiziPlaylist) : Bool :=
  p.contents.isEmpty

/-- `DiziPlaylistTrait::push`: append the song to `contents` and its index
to the end of `order`. -/
def push (p : DiziPlaylist) (song : DiziSongEntry) : DiziPlaylist :=
  { p with
    contents := p.contents ++ [song]
    order := p.order ++ [p.contents.length] }

/-- `DiziPlaylistTrait::remove`: the source body is exactly
`self.contents.remove(index)`. `Vec::remove` panics when
`index >= len`; the panic is modelled as `none`. Note that the source
does not touch `order` or `order_index`. -/
def remove (p : DiziPlaylist) (index : Nat) : Option DiziPlaylist :=
  if index < p.contents.length then
    some { p with contents := p.contents.eraseIdx index }
  else
    none

/-- `DiziPlaylistTrait::clear`. -/
def clear (_p : DiziPlaylist) : DiziPlaylist :=
  { contents := [], order := [], order_index := none }

/-- `DiziPlaylistTrait::is_end`. -/
def is_end (p : DiziPlaylist) : Bool :=
  match p.order_index with
  | none => true
  | some i => decide (i + 1 ≥ p.len)

/-- `DiziPlaylistTrait::current_song`: look up `order[order_index]` and the
song it refers to. Out-of-range indexing (a Rust panic, unreachable under
the permutation invariant) also yields `none`. -/
def current_song (p : DiziPlaylist) : Option DiziPlaylistEntry :=
  match p.order_index with
  | none => none
  | some playlist_index => do
    let song_index ← p.order[playlist_index]?
    let entry ← p.contents[song_index]?
    pure { entry_index := song_index, order_index := playlist_index, entry := entry }

/-- `DiziPlaylistTrait::shuffle`: build `0..len`, pull the currently
playing song's contents index to the front, and randomize the rest;
`rand` stands for `SliceRandom::shuffle(&mut thread_rng())`. -/
def shuffle (p : DiziPlaylist) (rand : List Nat → List Nat) : DiziPlaylist :=
  let base := List.range p.len
  match p.current_song with
  | some entry =>
    { p with
      order := entry.entry_index :: rand (base.eraseIdx entry.entry_index)
      order_index := some 0 }
  | none =>
    { p with order := rand base }

/-- `DiziPlaylistTrait::unshuffle`: remember the contents index of the
current song as the new `order_index`, then reset `order` to the identity.
Out-of-range indexing (a Rust panic, unreachable under the permutation
invariant) leaves `order_index` unchanged. -/
def unshuffle (p : DiziPlaylist) : DiziPlaylist :=
  let p1 :=
    match p.order_index with
    | some playlist_index =>
      match p.order[playlist_index]? with
      | some song_index => { p with order_index := some song_index }
      | none => p
    | none => p
  { p1 with order := List.range p1.len }

/-- The playlist invariant of spec §3: `order` is a permutation of
`[0, contents.len())` (which forces `order.len() == contents.len()`), and
`order_index`, when present, is in range. -/
def Invariant (p : DiziPlaylist) : Prop :=
  p.order.Perm (List.range p.contents.length) ∧
  ∀ k, p.order_index = some k → k < p.order.length

end DiziPlaylist

/-! ## The library playlist (`dizi_lib::playlist`) -/

/-- A library song (`dizi_lib::song::Song`); identified by its file path
(`Song::file_path`). -/
structure Song where
  file_path : String
deriving DecidableEq

/-- `dizi_lib::playlist::Playlist`: an ordered `_list` of songs together
with a secondary `_set` of contained paths (`HashSet<PathBuf>`, modelled
as a `Finset`) and a current `index`. -/
structure Playlist where
  _set : Finset String
  _list : List Song
  index : Nat
deriving DecidableEq

namespace Playlist

/-- `Playlist::new` / `Default`. -/
def new : Playlist :=
  { _set := ∅, _list := [], index := 0 }

/-- `Playlist::len`. -/
def len (p : Playlist) : Nat :=
  p._list.length

/-- `Playlist::contains`: membership in the secondary path set. -/
def contains (p : Playlist) (s : String) : Prop :=
  s ∈ p._set

instance (p : Playlist) (s : String) : Decidable (p.contains s) := by
  unfold Playlist.contains; infer_instance

/-- `Playlist::append_song`: insert the path into `_set`, push the song
onto `_list`. -/
def append_song (p : Playlist) (s : Song) : Playlist :=
  { p with _set := insert s.file_path p._set, _list := p._list ++ [s] }

/-- `Playlist::remove_song`: `Vec::remove` the song at `index` (a panic,
modelled as `none`, when out of bounds), then remove its path from
`_set`; returns the removed song with the post-state. -/
def remove_song (p : Playlist) (index : Nat) : Option (Song × Playlist) :=
  match p._list[index]? with
  | none => none
  | some song =>
    some (song,
      { p with
        _list := p._list.eraseIdx index
        _set := p._set.erase song.file_path })

/-- The correspondence between the secondary path set and the song list:
`contains` answers exactly "some song in the list has this path". -/
def InSync (p : Playlist) : Prop :=
  ∀ q : String, p.contains q ↔ ∃ s ∈ p._list, s.file_path = q

end Playlist

/-- `dizi_lib::playlist::DirlistPlaylist`: a flat list of file paths plus
a current index. -/
structure DirlistPlaylist where
  _list : List String
  index : Nat
deriving DecidableEq

namespace DirlistPlaylist

/-- `DirlistPlaylist::new` / `Default`. -/
def new : DirlistPlaylist :=
  { _list := [], index := 0 }

/-- `DirlistPlaylist::len`. -/
def len (p : DirlistPlaylist) : Nat :=
  p._list.length

end DirlistPlaylist

/-! ## The server `Player` (`src/server/audio/player.rs`) -/

/-- `dizi_lib::player::PlayerStatus`. -/
inductive PlayerStatus where
  | Stopped
  | Playing
  | Paused
deriving DecidableEq

/-- `dizi_lib::playlist::PlaylistStatus`. -/
inductive PlaylistStatus where
  | PlaylistFile
  | DirectoryListing
deriving DecidableEq

/-- `dizi_lib::error::DiziErrorKind` (the kinds used by the embedded
operations). -/
inductive DiziErrorKind where
  | IOError
  | DecodingError
  | InvalidParameters
  | UnrecognizedCommand
  | ChannelError
deriving DecidableEq

/-- The state fields of `Player` (`src/server/audio/player.rs`). The
worker thread handle and the request/response channels are not state;
the channel outcomes appear as explicit parameters of the operations. -/
structure Player where
  current_song : Option Song
  elapsed : Nat
  status : PlayerStatus
  _playlist_status : PlaylistStatus
  volume : ℚ
  shuffle_enabled : Bool
  repeat_enabled : Bool
  next_enabled : Bool
  playlist : Playlist
  dirlist_playlist : DirlistPlaylist
deriving DecidableEq

namespace Player

/-- Modelled from the spec: `Playlist::set_playing_index` is called by
`Player::play_from_playlist` but its body is not under `src/`; per spec
§4.2 it records the played entry as the playlist's current index. -/
def set_playing_index (p : Playlist) (index : Nat) : Playlist :=
  { p with index := index }

/-- Modelled from the spec: `DirlistPlaylist::set_playing_index`, the
directory-list counterpart; its body is not under `src/`. -/
def dirlist_set_playing_index (p : DirlistPlaylist) (index : Nat) : DirlistPlaylist :=
  { p with index := index }

/-- `Player::play`: send `Play(song)` (`send(..)?`), await the
acknowledgement (`recv()??`), and only then set `status = Playing` and
`current_song`. `sendRes` is the result of the channel send, `recvRes`
the result of the receive carrying the worker's own result. -/
def play (p : Player) (song : Song) (sendRes : Except DiziErrorKind Unit)
    (recvRes : Except DiziErrorKind (Except DiziErrorKind Unit)) :
    Except DiziErrorKind Unit × Player :=
  match sendRes with
  | .error e => (.error e, p)
  | .ok _ =>
    match recvRes with
    | .error e => (.error e, p)
    | .ok (.error e) => (.error e, p)
    | .ok (.ok _) =>
      (.ok (), { p with status := .Playing, current_song := some song })

/-- `Player::play_from_playlist`: bounds-check against the playlist
length, fetch the song, `play` it, then record the playing index and set
the playlist status. -/
def play_from_playlist (p : Player) (index : Nat)
    (sendRes : Except DiziErrorKind Unit)
    (recvRes : Except DiziErrorKind (Except DiziErrorKind Unit)) :
    Except DiziErrorKind Unit × Player :=
  if h : p.playlist.len ≤ index then
    (.error .InvalidParameters, p)
  else
    let song := p.playlist._list.get ⟨index, by
      unfold Playlist.len at h; omega⟩
    match p.play song sendRes recvRes with
    | (.error e, p1) => (.error e, p1)
    | (.ok _, p1) =>
      (.ok (),
        { p1 with
          playlist := set_playing_index p1.playlist index
          _playlist_status := .PlaylistFile })

/-- `Player::play_from_directory`: bounds-check against the directory
list, probe the file (`Song::new`, an IO action modelled by `songNew`),
`play` it, then record the playing index and set the playlist status. -/
def play_from_directory (p : Player) (index : Nat)
    (songNew : String → Except DiziErrorKind Song)
    (sendRes : Except DiziErrorKind Unit)
    (recvRes : Except DiziErrorKind (Except DiziErrorKind Unit)) :
    Except DiziErrorKind Unit × Player :=
  if h : p.dirlist_playlist.len ≤ index then
    (.error .InvalidParameters, p)
  else
    let path := p.dirlist_playlist._list.get ⟨index, by
      unfold DirlistPlaylist.len at h; omega⟩
    match songNew path with
    | .error e => (.error e, p)
    | .ok song =>
      match p.play song sendRes recvRes with
      | (.error e, p1) => (.error e, p1)
      | (.ok _, p1) =>
        (.ok (),
          { p1 with
            dirlist_playlist := dirlist_set_playing_index p1.dirlist_playlist index
            _playlist_status := .DirectoryListing })

/-- `Player::set_volume`: send `SetVolume(volume)` (`send(..)?`), await
the acknowledgement (`recv()??`), then store the value unmodified. -/
def set_volume (p : Player) (volume : ℚ) (sendRes : Except DiziErrorKind Unit)
    (recvRes : Except DiziErrorKind (Except DiziErrorKind Unit)) :
    Except DiziErrorKind Unit × Player :=
  match sendRes with
  | .error e => (.error e, p)
  | .ok _ =>
    match recvRes with
    | .error e => (.error e, p)
    | .ok (.error e) => (.error e, p)
    | .ok (.ok _) => (.ok (), { p with volume := volume })

end Player

/-- A `Player` in its initial state (`Player::new` with an empty saved
playlist): volume starts at `0.5`, status `Stopped`. -/
def samplePlayer : Player :=
  { current_song := none
    elapsed := 0
    status := .Stopped
    _playlist_status := .PlaylistFile
    volume := 1 / 2
    shuffle_enabled := false
    repeat_enabled := false
    next_enabled := false
    playlist := Playlist.new
    dirlist_playlist := DirlistPlaylist.new }

/-! ## The wire-protocol request parser (`dizi_lib::request::client`) -/

/-- `dizi_lib::request::ClientRequest`. `PathBuf` parameters are paths as
strings, `Duration` parameters are whole seconds. -/
inductive ClientRequest where
  | Leave (uuid : String)
  | ServerQuit
  | PlayerState
  | PlayerFilePlay (path : String)
  | PlayerPlayNext
  | PlayerPlayPrevious
  | PlayerPause
  | PlayerResume
  | PlayerGetVolume
  | PlayerRewind (amount : Nat)
  | PlayerFastForward (amount : Nat)
  | PlayerTogglePlay
  | PlayerToggleNext
  | PlayerToggleRepeat
  | PlayerToggleShuffle
  | PlayerVolumeUp (amount : Nat)
  | PlayerVolumeDown (amount : Nat)
  | PlaylistState
  | PlaylistOpen (path : String)
  | PlaylistPlay (index : Nat)
  | PlaylistAppend (path : String)
  | PlaylistRemove (index : Nat)
  | PlaylistMoveUp (index : Nat)
  | PlaylistMoveDown (index : Nat)
deriving DecidableEq

namespace ClientRequest

/-- `ClientRequest::parse_str`: a match on the route string alone; the
`args` argument does not occur in the body. Every parameter is filled
with a fixed default, and an unknown route is an `UnrecognizedCommand`
error (the error's message text is not modelled). -/
def parse_str (s : String) (args : String) : Except DiziErrorKind ClientRequest :=
  if s = "/client/leave" then .ok (.Leave "")
  else if s = "/server/quit" then .ok .ServerQuit
  else if s = "/player/state" then .ok .PlayerState
  else if s = "/player/play/file" then .ok (.PlayerFilePlay "")
  else if s = "/player/play/next" then .ok .PlayerPlayNext
  else if s = "/player/play/previous" then .ok .PlayerPlayPrevious
  else if s = "/player/pause" then .ok .PlayerPause
  else if s = "/player/resume" then .ok .PlayerResume
  else if s = "/player/volume/get" then .ok .PlayerGetVolume
  else if s = "/player/rewind" then .ok (.PlayerRewind 1)
  else if s = "/player/fast_forward" then .ok (.PlayerFastForward 1)
  else if s = "/player/toggle/play" then .ok .PlayerTogglePlay
  else if s = "/player/toggle/next" then .ok .PlayerToggleNext
  else if s = "/player/toggle/repeat" then .ok .PlayerToggleRepeat
  else if s = "/player/toggle/shuffle" then .ok .PlayerToggleShuffle
  else if s = "/player/volume/increase" then .ok (.PlayerVolumeUp 1)
  else if s = "/player/volume/decrease" then .ok (.PlayerVolumeDown 1)
  else if s = "/playlist/state" then .ok .PlaylistState
  else if s = "/playlist/open" then .ok (.PlaylistOpen "")
  else if s = "/playlist/play" then .ok (.PlaylistPlay 0)
  else if s = "/playlist/append" then .ok (.PlaylistAppend "")
  else if s = "/playlist/remove" then .ok (.PlaylistRemove 0)
  else if s = "/playlist/move_up" then .ok (.PlaylistMoveUp 0)
  else if s = "/playlist/move_down" then .ok (.PlaylistMoveDown 0)
  else .error .UnrecognizedCommand

end ClientRequest

/-- The route strings recognized by `ClientRequest::parse_str`. -/
def clientRoutes : List String :=
  ["/client/leave", "/server/quit", "/player/state", "/player/play/file",
   "/player/play/next", "/player/play/previous", "/player/pause",
   "/player/resume", "/player/volume/get", "/player/rewind",
   "/player/fast_forward", "/player/toggle/play", "/player/toggle/next",
   "/player/toggle/repeat", "/player/toggle/shuffle",
   "/player/volume/increase", "/player/volume/decrease", "/playlist/state",
   "/playlist/open", "/playlist/play", "/playlist/append",
   "/playlist/remove", "/playlist/move_up", "/playlist/move_down"]

/-! ## The realtime output callback (`stream_loop_f32`) -/

/-- A `PlayerRequest` as seen by the realtime callback, which handles
only `SetVolume` and ignores every other variant. -/
inductive CallbackMsg where
  | SetVolume (v : ℚ)
  | Other
deriving DecidableEq

/-- The shared state of the realtime callback of `stream_loop_f32`: the
read cursor (`frame_index`) and the volume scalar, both behind
`RwLock`s in the source. -/
structure CallbackState where
  cursor : Nat
  volume : ℚ
deriving DecidableEq

/-- The inner `for d in data` loop of the callback: starting at sample
`offset + i` with `slots` output slots left, copy `volume * sample` into
the output until the data slice is full or the decoded buffer is
exhausted. Returns the written samples, the final `i`, and whether the
end-of-buffer branch ran (setting the cursor to the end and emitting
`StreamEnded`). -/
def writeSamples (packets : List ℚ) (volume : ℚ) (offset : Nat) :
    Nat → Nat → List ℚ × Nat × Bool
  | i, 0 => ([], i, false)
  | i, slots + 1 =>
    if packets.length ≤ offset + i then
      ([], i, true)
    else
      let sample := (packets.getD (offset + i) 0) * volume
      let rest := writeSamples packets volume offset (i + 1) slots
      (sample :: rest.1, rest.2.1, rest.2.2)

/-- One invocation of the realtime closure inside `stream_loop_f32`:
read the cursor, drain at most one pending `SetVolume`, return early
when the cursor is already past the end, otherwise run the copy loop and
add the loop counter `i` onto the cursor — which the end-of-buffer
branch has just set to `packets.length`. Returns the new shared state,
the written samples, and the number of `StreamEnded` events sent. -/
def callback_f32 (packets : List ℚ) (st : CallbackState)
    (msg : Option CallbackMsg) (dataLen : Nat) :
    CallbackState × List ℚ × Nat :=
  let offset := st.cursor
  let volume :=
    match msg with
    | some (.SetVolume v) => v
    | _ => st.volume
  if packets.length ≤ offset then
    ({ cursor := st.cursor, volume := volume }, [], 0)
  else
    let r := writeSamples packets volume offset 0 dataLen
    let i := r.2.1
    let ended := r.2.2
    ({ cursor := (if ended then packets.length else offset) + i, volume := volume },
     r.1, if ended then 1 else 0)

/-! ## Song advancement on `PlayerDone` (`src/server/server.rs`) -/

/-- A playback queue as the advancement algorithm sees it: a play-order
permutation plus the current position in it. The directory-list queue is
flat, i.e. its `order` is the identity. -/
structure ActiveQueue where
  order : List Nat
  orderIndex : Nat
deriving DecidableEq

/-- The advancement context: the player toggles, the active-queue
selector, and both queues (`Player::playlist` and
`Player::dirlist_playlist`). `playable` tells whether playing a given
entry index succeeds; a `false` entry models a file whose playback
errors (e.g. a decode failure). -/
structure DoneCtx where
  next_enabled : Bool
  repeat_enabled : Bool
  playlist_status : PlaylistStatus
  playlistQueue : ActiveQueue
  dirlistQueue : ActiveQueue
deriving DecidableEq

/-- The queue selected by the playlist status. -/
def DoneCtx.active (ctx : DoneCtx) : ActiveQueue :=
  match ctx.playlist_status with
  | .PlaylistFile => ctx.playlistQueue
  | .DirectoryListing => ctx.dirlistQueue

/-- Modelled from the spec: `player_play_next` (from
`crate::server_commands::player`, not under `src/`) steps `i` positions
forward in the currently active queue: the candidate sits at order
position `(order_index + i) % len`, and playing it fails when the file
is unplayable. Returns the entry index played. -/
def player_play_next (ctx : DoneCtx) (playable : Nat → Bool) (i : Nat) :
    Option Nat :=
  let q := ctx.active
  match h : q.order.length with
  | 0 => none
  | n + 1 =>
    let pos := (q.orderIndex + i) % (n + 1)
    let candidate := q.order.get ⟨pos, by
      have := Nat.mod_lt (q.orderIndex + i) (y := n + 1) (Nat.succ_pos n)
      omega⟩
    if playable candidate then some candidate else none

/-- Modelled from the spec: `player_play_again` replays the current song
(`current`); used by the repeat branch. -/
def player_play_again (current : Option Nat) : Option Nat :=
  current

/-- The `for i in (1..len)` loop of `process_done_song`: try steps
`start, start+1, ...` (`count` of them), skip a step whose playback
fails (`continue`), stop at the first success (`break`). -/
def advanceLoop (tryStep : Nat → Option Nat) : Nat → Nat → Option Nat
  | _, 0 => none
  | start, count + 1 =>
    match tryStep start with
    | some c => some c
    | none => advanceLoop tryStep (start + 1) count

/-- `process_done_song` (src/server/server.rs): when `next` is off,
repeat decides between replaying and stopping; when `next` is on, the
loop bound is `max(dirlist len, playlist len)` — computed in the source
as `if len1 < len2 { len2 } else { len1 }` — and each step goes through
`player_play_next`. Returns the entry index played, if any. -/
def process_done_song (ctx : DoneCtx) (playable : Nat → Bool)
    (current : Option Nat) : Option Nat :=
  if !ctx.next_enabled then
    if ctx.repeat_enabled then player_play_again current
    else none
  else
    let len1 := ctx.dirlistQueue.order.length
    let len2 := ctx.playlistQueue.order.length
    let len := if len1 < len2 then len2 else len1
    advanceLoop (player_play_next ctx playable) 1 (len - 1)

/-- The advancement the claim describes: identical to
`process_done_song` except that the loop ranges over
`1..len(active queue)` only. -/
def spec_advance (ctx : DoneCtx) (playable : Nat → Bool)
    (current : Option Nat) : Option Nat :=
  if !ctx.next_enabled then
    if ctx.repeat_enabled then player_play_again current
    else none
  else
    let len := ctx.active.order.length
    advanceLoop (player_play_next ctx playable) 1 (len - 1)

/-- A concrete advancement context: the playlist queue (two entries,
identity-equivalent order, currently at order position 0) is active,
while the inactive directory list holds four entries. With only entry 0
playable, the loop bound `max(4, 2)` lets the source loop wrap around
and replay the just-finished entry. -/
def doneCtxSample : DoneCtx :=
  { next_enabled := true
    repeat_enabled := false
    playlist_status := .PlaylistFile
    playlistQueue := { order := [0, 1], orderIndex := 0 }
    dirlistQueue := { order := [0, 1, 2, 3], orderIndex := 0 } }

/-- A concrete three-song playlist used by witnesses: play order
`[2, 0, 1]`, currently playing order position 1 (contents index 0). -/
def samplePlaylist : DiziPlaylist :=
  { contents := [{ file_path := "a" }, { file_path := "b" }, { file_path := "c" }]
    order := [2, 0, 1]
    order_index := some 1 }

/-! ## Helper lemmas -/

/-- Erasing position `i` and re-consing the erased element permutes back
to the original list. -/
theorem cons_get_eraseIdx_perm {α : Type} (l : List α) (i : Nat)
    (h : i < l.length) : (l.get ⟨i, h⟩ :: l.eraseIdx i).Perm l := by
  have hd : l = l.take i ++ l.get ⟨i, h⟩ :: l.drop (i + 1) := by
    conv_lhs => rw [← List.take_append_drop i l]
    rw [List.drop_eq_getElem_cons h]
    rfl
  rw [List.eraseIdx_eq_take_drop_succ]
  conv_rhs => rw [hd]
  exact List.perm_middle.symm

/-- When the data slice fits inside the remaining buffer, the copy loop
fills the whole slice and the end-of-buffer branch never runs. -/
theorem writeSamples_no_end (packets : List ℚ) (v : ℚ) (offset : Nat) :
    ∀ slots i, offset + i + slots ≤ packets.length →
      (writeSamples packets v offset i slots).2 = (i + slots, false) := by
  intro slots
  induction slots with
  | zero => intro i _; simp [writeSamples]
  | succ n ih =>
    intro i hle
    have hlt : ¬ packets.length ≤ offset + i := by omega
    have := ih (i + 1) (by omega)
    simp only [writeSamples, if_neg hlt, this, Prod.mk.injEq, and_true]
    omega

/-- When the remaining buffer is shorter than the data slice, the copy
loop stops at the end of the buffer and the end-of-buffer branch runs. -/
theorem writeSamples_end (packets : List ℚ) (v : ℚ) (offset : Nat) :
    ∀ slots i, offset + i ≤ packets.length →
      packets.length < offset + i + slots →
      (writeSamples packets v offset i slots).2
        = (packets.length - offset, true) := by
  intro slots
  induction slots with
  | zero => intro i h1 h2; omega
  | succ n ih =>
    intro i h1 h2
    by_cases hend : packets.length ≤ offset + i
    · have : offset + i = packets.length := by omega
      simp only [writeSamples, if_pos hend, Prod.mk.injEq, and_true]
      omega
    · have := ih (i + 1) (by omega) (by omega)
      simp only [writeSamples, if_neg hend, this]

/-! ## Claims -/

/-- C1: the claim asserts that `remove(i)` drops the `order` entries equal
to `i`, decrements those greater than `i`, adjusts `order_index`, and
preserves the permutation invariant. The source's `remove` only calls
`contents.remove(index)`: on the two-song playlist below, removing index
0 leaves `order = [0, 1]` untouched, so `len(order) ≠ len(contents)` and
the invariant is broken. -/
theorem C1_remove_breaks_invariant :
    DiziPlaylist.remove
        { contents := [{ file_path := "a" }, { file_path := "b" }],
          order := [0, 1], order_index := none } 0
      = some { contents := [{ file_path := "b" }],
               order := [0, 1], order_index := none } ∧
    ¬ DiziPlaylist.Invariant
        { contents := [{ file_path := "b" }],
          order := [0, 1], order_index := none } := by
  constructor
  · rfl
  · intro h
    have := h.1.length_eq
    simp [List.length_range] at this

/-- C3 (counterexample): `DiziPlaylist::remove` performs no bounds check:
`self.contents.remove(index)` is `Vec::remove`, which panics on an
out-of-bounds index (modelled as `none`), so an out-of-bounds `remove`
does not return an `InvalidParameters` error as the claim asserts. -/
theorem C3_remove_out_of_bounds_panics :
    DiziPlaylist.remove { contents := [], order := [], order_index := none } 0
      = none := by
  rfl

/-- C3 (amended): `play_from_playlist` and `play_from_directory` check
the index against the corresponding list length first and return
`InvalidParameters` without touching the state when it is out of bounds;
`DiziPlaylist::remove`, in contrast, performs no bounds check and panics
(`none`) exactly on out-of-bounds indices, succeeding otherwise. -/
theorem C3_bounds_checked_operations (p : Player) (index : Nat)
    (songNew : String → Except DiziErrorKind Song)
    (sendRes : Except DiziErrorKind Unit)
    (recvRes : Except DiziErrorKind (Except DiziErrorKind Unit))
    (q : DiziPlaylist) (i : Nat) :
    (p.playlist.len ≤ index →
      p.play_from_playlist index sendRes recvRes
        = (.error .InvalidParameters, p)) ∧
    (p.dirlist_playlist.len ≤ index →
      p.play_from_directory index songNew sendRes recvRes
        = (.error .InvalidParameters, p)) ∧
    (q.contents.length ≤ i → q.remove i = none) ∧
    (i < q.contents.length → (q.remove i).isSome = true) := by
  refine ⟨?_, ?_, ?_, ?_⟩
  · intro h
    simp [Player.play_from_playlist, h]
  · intro h
    simp [Player.play_from_directory, h]
  · intro h
    simp [DiziPlaylist.remove]
    omega
  · intro h
    simp [DiziPlaylist.remove, h]

/-- C3 (witness): the amended statement at concrete inputs: an
out-of-bounds index yields `InvalidParameters` from both play
operations, while `remove` panics out of bounds and succeeds in
bounds. -/
theorem C3_bounds_checked_operations_witness :
    (samplePlayer.play_from_playlist 5 (.ok ()) (.ok (.ok ()))
      = (.error .InvalidParameters, samplePlayer)) ∧
    (samplePlayer.play_from_directory 5 (fun _ => .ok { file_path := "" })
        (.ok ()) (.ok (.ok ()))
      = (.error .InvalidParameters, samplePlayer)) ∧
    (DiziPlaylist.remove { contents := [], order := [], order_index := none } 3
      = none) ∧
    ((DiziPlaylist.remove
        { contents := [{ file_path := "a" }], order := [0], order_index := none }
        0).isSome = true) := by
  refine ⟨?_, ?_, ?_, ?_⟩
  · exact (C3_bounds_checked_operations samplePlayer 5 (fun _ => .ok { file_path := "" })
      (.ok ()) (.ok (.ok ())) { contents := [], order := [], order_index := none } 3).1
      (by decide)
  · exact (C3_bounds_checked_operations samplePlayer 5 (fun _ => .ok { file_path := "" })
      (.ok ()) (.ok (.ok ())) { contents := [], order := [], order_index := none } 3).2.1
      (by decide)
  · exact (C3_bounds_checked_operations samplePlayer 5 (fun _ => .ok { file_path := "" })
      (.ok ()) (.ok (.ok ())) { contents := [], order := [], order_index := none } 3).2.2.1
      (by decide)
  · exact (C3_bounds_checked_operations samplePlayer 5 (fun _ => .ok { file_path := "" })
      (.ok ()) (.ok (.ok ()))
      { contents := [{ file_path := "a" }], order := [0], order_index := none } 0).2.2.2
      (by decide)

/-- C4 (counterexample): `Player::set_volume` performs no clamping: it
sends the value to the worker and stores it verbatim, so
`set_volume(1.2)` stores `1.2` (not `1.0`) and `set_volume(-0.5)` stores
`-0.5` (not `0.0`). -/
theorem C4_set_volume_does_not_clamp :
    (samplePlayer.set_volume (6 / 5) (.ok ()) (.ok (.ok ()))).2.volume = 6 / 5 ∧
    (6 / 5 : ℚ) ≠ 1 ∧
    (samplePlayer.set_volume (-(1 / 2)) (.ok ()) (.ok (.ok ()))).2.volume
      = -(1 / 2) ∧
    (-(1 / 2) : ℚ) ≠ 0 := by
  refine ⟨rfl, by norm_num, rfl, by norm_num⟩

/-- C4 (amended): `set_volume(v)` sends `v` to the worker unmodified and,
when the worker acknowledges, persists exactly `v`; when any channel step
fails, the player state (hence the stored volume) is unchanged. -/
theorem C4_set_volume_stores_raw (p : Player) (v : ℚ)
    (sendRes : Except DiziErrorKind Unit)
    (recvRes : Except DiziErrorKind (Except DiziErrorKind Unit)) :
    ((p.set_volume v sendRes recvRes).1 = .ok () →
      (p.set_volume v sendRes recvRes).2.volume = v) ∧
    (∀ e, (p.set_volume v sendRes recvRes).1 = .error e →
      (p.set_volume v sendRes recvRes).2 = p) := by
  cases sendRes with
  | error e => simp [Player.set_volume]
  | ok _ =>
    cases recvRes with
    | error e => simp [Player.set_volume]
    | ok inner =>
      cases inner with
      | error e => simp [Player.set_volume]
      | ok _ => simp [Player.set_volume]

/-- C4 (witness): on a successful acknowledgement the stored volume is
exactly the argument. -/
theorem C4_set_volume_stores_raw_witness :
    (samplePlayer.set_volume (6 / 5) (.ok ()) (.ok (.ok ()))).2.volume = 6 / 5 :=
  (C4_set_volume_stores_raw samplePlayer (6 / 5) (.ok ()) (.ok (.ok ()))).1 rfl

/-- C6: `Player::play` mutates nothing before both channel steps succeed:
on any failure the returned state keeps the old `status` and
`current_song`; on success the status is `Playing` and `current_song` is
the played song. -/
theorem C6_play_state_change (p : Player) (song : Song)
    (sendRes : Except DiziErrorKind Unit)
    (recvRes : Except DiziErrorKind (Except DiziErrorKind Unit)) :
    (∀ e, (p.play song sendRes recvRes).1 = .error e →
      (p.play song sendRes recvRes).2.status = p.status ∧
      (p.play song sendRes recvRes).2.current_song = p.current_song) ∧
    ((p.play song sendRes recvRes).1 = .ok () →
      (p.play song sendRes recvRes).2.status = .Playing ∧
      (p.play song sendRes recvRes).2.current_song = some song) := by
  cases sendRes with
  | error e => simp [Player.play]
  | ok _ =>
    cases recvRes with
    | error e => simp [Player.play]
    | ok inner =>
      cases inner with
      | error e => simp [Player.play]
      | ok _ => simp [Player.play]

/-- C6 (witness): a successful play on the initial player sets status
`Playing` and the current song. -/
theorem C6_play_state_change_witness :
    (samplePlayer.play { file_path := "x" } (.ok ()) (.ok (.ok ()))).2.status
      = .Playing ∧
    (samplePlayer.play { file_path := "x" } (.ok ()) (.ok (.ok ()))).2.current_song
      = some { file_path := "x" } :=
  (C6_play_state_change samplePlayer { file_path := "x" } (.ok ())
    (.ok (.ok ()))).2 rfl

/-- C9: `ClientRequest::parse_str` never reads its `args` argument:
the result depends on the route string alone, every parameter-carrying
route gets a fixed default (empty uuid, empty path, index 0, amount 1,
one-second duration), and any string outside the route table is an
`UnrecognizedCommand` error. -/
theorem C9_parse_str_ignores_args (s a1 a2 : String) :
    (s ∉ clientRoutes →
      ClientRequest.parse_str s a1 = .error .UnrecognizedCommand) ∧
    ClientRequest.parse_str s a1 = ClientRequest.parse_str s a2 ∧
    ClientRequest.parse_str "/client/leave" a1 = .ok (.Leave "") ∧
    ClientRequest.parse_str "/player/play/file" a1 = .ok (.PlayerFilePlay "") ∧
    ClientRequest.parse_str "/player/rewind" a1 = .ok (.PlayerRewind 1) ∧
    ClientRequest.parse_str "/player/fast_forward" a1
      = .ok (.PlayerFastForward 1) ∧
    ClientRequest.parse_str "/player/volume/increase" a1
      = .ok (.PlayerVolumeUp 1) ∧
    ClientRequest.parse_str "/player/volume/decrease" a1
      = .ok (.PlayerVolumeDown 1) ∧
    ClientRequest.parse_str "/playlist/open" a1 = .ok (.PlaylistOpen "") ∧
    ClientRequest.parse_str "/playlist/play" a1 = .ok (.PlaylistPlay 0) ∧
    ClientRequest.parse_str "/playlist/append" a1 = .ok (.PlaylistAppend "") ∧
    ClientRequest.parse_str "/playlist/remove" a1 = .ok (.PlaylistRemove 0) ∧
    ClientRequest.parse_str "/playlist/move_up" a1 = .ok (.PlaylistMoveUp 0) ∧
    ClientRequest.parse_str "/playlist/move_down" a1
      = .ok (.PlaylistMoveDown 0) := by
  refine ⟨?_, rfl, rfl, rfl, rfl, rfl, rfl, rfl, rfl, rfl, rfl, rfl, rfl, rfl⟩
  intro h
  simp only [clientRoutes, List.mem_cons, List.not_mem_nil, or_false,
    not_or] at h
  obtain ⟨h1, h2, h3, h4, h5, h6, h7, h8, h9, h10, h11, h12, h13, h14, h15,
    h16, h17, h18, h19, h20, h21, h22, h23, h24⟩ := h
  simp only [ClientRequest.parse_str, if_neg h1, if_neg h2, if_neg h3,
    if_neg h4, if_neg h5, if_neg h6, if_neg h7, if_neg h8, if_neg h9,
    if_neg h10, if_neg h11, if_neg h12, if_neg h13, if_neg h14, if_neg h15,
    if_neg h16, if_neg h17, if_neg h18, if_neg h19, if_neg h20, if_neg h21,
    if_neg h22, if_neg h23, if_neg h24]

/-- C9 (witness): an unknown route string is rejected with
`UnrecognizedCommand`, whatever the arguments. -/
theorem C9_parse_str_ignores_args_witness :
    ClientRequest.parse_str "/bogus" "x" = .error .UnrecognizedCommand :=
  (C9_parse_str_ignores_args "/bogus" "x" "y").1 (by decide)

/-- C10: for the list-plus-set `Playlist`, the `contains`/list
correspondence (`InSync`) holds for the empty playlist, is preserved by
`append_song` of a song whose path is not yet present, and is preserved
by `remove_song` at a valid index as long as the listed paths are
pairwise distinct; appending the same path twice and removing one copy
breaks it: the surviving `{ _set := ∅, _list := [⟨"a"⟩] }` state answers
`contains "a" = false` although the list still holds the path. -/
theorem C10_contains_list_correspondence (p : Playlist) (s : Song) (i : Nat) :
    Playlist.InSync Playlist.new ∧
    (p.InSync → ¬ p.contains s.file_path → (p.append_song s).InSync) ∧
    (p.InSync → (p._list.map Song.file_path).Nodup →
      ∀ song p2, p.remove_song i = some (song, p2) → p2.InSync) ∧
    (((Playlist.new.append_song { file_path := "a" }).append_song
        { file_path := "a" }).remove_song 0
      = some ({ file_path := "a" },
          { _set := ∅, _list := [{ file_path := "a" }], index := 0 }) ∧
     ¬ Playlist.InSync
        { _set := ∅, _list := [{ file_path := "a" }], index := 0 }) := by
  refine ⟨?_, ?_, ?_, ?_, ?_⟩
  · intro q
    simp [Playlist.contains, Playlist.new]
  · intro hs _ q
    have hq := hs q
    simp only [Playlist.contains, Playlist.append_song] at hq ⊢
    rw [Finset.mem_insert]
    constructor
    · rintro (rfl | hmem)
      · exact ⟨s, by simp, rfl⟩
      · obtain ⟨t, ht, rfl⟩ := hq.mp hmem
        exact ⟨t, by simp [ht], rfl⟩
    · rintro ⟨t, ht, rfl⟩
      rcases List.mem_append.mp ht with h1 | h2
      · exact Or.inr (hq.mpr ⟨t, h1, rfl⟩)
      · rcases List.mem_singleton.mp h2 with rfl
        exact Or.inl rfl
  · intro hs hnd song p2 hrm
    simp only [Playlist.remove_song] at hrm
    cases hx : p._list[i]? with
    | none => rw [hx] at hrm; cases hrm
    | some song0 =>
      rw [hx] at hrm
      simp only [Option.some.injEq, Prod.mk.injEq] at hrm
      obtain ⟨rfl, rfl⟩ := hrm
      rw [List.getElem?_eq_some_iff] at hx
      obtain ⟨hlen, hget⟩ := hx
      have hdecomp : p._list
          = p._list.take i ++ song0 :: p._list.drop (i + 1) := by
        conv_lhs => rw [← List.take_append_drop i p._list]
        rw [List.drop_eq_getElem_cons hlen, hget]
      have herase : p._list.eraseIdx i
          = p._list.take i ++ p._list.drop (i + 1) :=
        List.eraseIdx_eq_take_drop_succ _ _
      rw [hdecomp, List.map_append, List.map_cons, List.nodup_append] at hnd
      obtain ⟨-, hnd2, hdisj⟩ := hnd
      have hnotdrop : song0.file_path ∉ (p._list.drop (i + 1)).map
          Song.file_path := (List.nodup_cons.mp hnd2).1
      have hnottake : song0.file_path ∉ (p._list.take i).map
          Song.file_path := by
        intro hmem
        exact absurd (List.mem_cons_self _ _) (hdisj hmem)
      intro q
      have hq := hs q
      simp only [Playlist.contains] at hq ⊢
      rw [Finset.mem_erase, herase]
      constructor
      · rintro ⟨hne, hmem⟩
        obtain ⟨t, ht, rfl⟩ := hq.mp hmem
        rw [hdecomp] at ht
        rcases List.mem_append.mp ht with h1 | h2
        · exact ⟨t, List.mem_append.mpr (Or.inl h1), rfl⟩
        · rcases List.mem_cons.mp h2 with rfl | h3
          · exact absurd rfl hne
          · exact ⟨t, List.mem_append.mpr (Or.inr h3), rfl⟩
      · rintro ⟨t, ht, rfl⟩
        have htl : t ∈ p._list := by
          rw [hdecomp]
          rcases List.mem_append.mp ht with h1 | h2
          · exact List.mem_append.mpr (Or.inl h1)
          · exact List.mem_append.mpr (Or.inr (List.mem_cons.mpr (Or.inr h2)))
        refine ⟨?_, hq.mpr ⟨t, htl, rfl⟩⟩
        rcases List.mem_append.mp ht with h1 | h2
        · intro heq
          exact hnottake (heq ▸ List.mem_map_of_mem Song.file_path h1)
        · intro heq
          exact hnotdrop (heq ▸ List.mem_map_of_mem Song.file_path h2)
  · decide
  · intro h
    have h2 := (h "a").mpr ⟨{ file_path := "a" }, by simp, rfl⟩
    simp [Playlist.contains] at h2

/-- C10 (witness): the preservation clauses applied along a concrete run:
two distinct appends starting from the empty playlist keep the
correspondence, and so does removing the first song afterwards. -/
theorem C10_contains_list_correspondence_witness :
    Playlist.InSync
      { _set := ({"b"} : Finset String), _list := [{ file_path := "b" }],
        index := 0 } := by
  have base := (C10_contains_list_correspondence Playlist.new
    { file_path := "a" } 0).1
  have h1 : Playlist.InSync (Playlist.new.append_song { file_path := "a" }) :=
    (C10_contains_list_correspondence Playlist.new { file_path := "a" } 0).2.1
      base (by decide)
  have h2 : Playlist.InSync ((Playlist.new.append_song
      { file_path := "a" }).append_song { file_path := "b" }) :=
    (C10_contains_list_correspondence (Playlist.new.append_song
      { file_path := "a" }) { file_path := "b" } 0).2.1 h1 (by decide)
  have hrm : ((Playlist.new.append_song { file_path := "a" }).append_song
      { file_path := "b" }).remove_song 0
      = some ({ file_path := "a" },
          { _set := ({"b"} : Finset String),
            _list := [{ file_path := "b" }], index := 0 }) := by
    decide
  exact (C10_contains_list_correspondence ((Playlist.new.append_song
    { file_path := "a" }).append_song { file_path := "b" })
    { file_path := "a" } 0).2.2.1 h2 (by decide) _ _ hrm

/-- C7: under the permutation invariant, `shuffle()` with a playing song
puts the pre-shuffle `order[k]` (the playing song's contents index) at
`order[0]`, resets `order_index` to 0, and keeps `order` a permutation of
`[0, len)`; with no playing song the whole order is randomized and still
a permutation, with `order_index` staying `None`. -/
theorem C7_shuffle_current_first (p : DiziPlaylist)
    (rand : List Nat → List Nat) (hrand : ∀ l, (rand l).Perm l)
    (hinv : p.Invariant) :
    (∀ k, p.order_index = some k →
      (p.shuffle rand).order.head? = p.order[k]? ∧
      (p.shuffle rand).order_index = some 0 ∧
      (p.shuffle rand).Invariant) ∧
    (p.order_index = none →
      (p.shuffle rand).order_index = none ∧
      (p.shuffle rand).Invariant) := by
  obtain ⟨hperm, hidx⟩ := hinv
  constructor
  · intro k hk
    have hklt : k < p.order.length := hidx k hk
    have hOrderK : p.order[k]? = some p.order[k] :=
      List.getElem?_eq_getElem hklt
    have heMem : p.order[k] ∈ p.order := List.getElem_mem hklt
    have heLt : p.order[k] < p.contents.length :=
      List.mem_range.mp (hperm.mem_iff.mp heMem)
    have hContents : p.contents[(p.order[k])]? = some p.contents[(p.order[k])] :=
      List.getElem?_eq_getElem heLt
    have hcur : p.current_song
        = some { entry_index := p.order[k], order_index := k,
                 entry := p.contents[(p.order[k])] } := by
      simp [DiziPlaylist.current_song, hk, hOrderK, hContents]
    have hshuffle : p.shuffle rand
        = { p with
            order := p.order[k] ::
              rand ((List.range p.len).eraseIdx p.order[k])
            order_index := some 0 } := by
      simp [DiziPlaylist.shuffle, hcur]
    rw [hshuffle]
    refine ⟨by simp [hOrderK], rfl, ?_, ?_⟩
    · have hbound : p.order[k] < (List.range p.len).length := by
        simpa [DiziPlaylist.len] using heLt
      have h2 : ((List.range p.len).get ⟨p.order[k], hbound⟩ ::
          (List.range p.len).eraseIdx p.order[k]).Perm
          (List.range p.len) :=
        cons_get_eraseIdx_perm _ _ _
      rw [List.get_eq_getElem, List.getElem_range] at h2
      have h3 : (p.order[k] :: rand ((List.range p.len).eraseIdx p.order[k])).Perm
          (List.range p.len) := ((hrand _).cons _).trans h2
      simpa [DiziPlaylist.len] using h3
    · intro k2 hk2
      injection hk2 with h
      simp [← h]
  · intro hnone
    have hcur : p.current_song = none := by
      simp [DiziPlaylist.current_song, hnone]
    have hshuffle : p.shuffle rand = { p with order := rand (List.range p.len) } := by
      simp [DiziPlaylist.shuffle, hcur]
    rw [hshuffle]
    refine ⟨by simp [hnone], (hrand _).trans ?_, ?_⟩
    · simp [DiziPlaylist.len]
    · intro k2 hk2
      simp only at hk2
      rw [hnone] at hk2
      cases hk2

/-- C7 (witness): the three-song playlist `samplePlaylist` (order
`[2, 0, 1]`, playing order position 1): shuffling with the identity
reordering puts the playing song's contents index first, resets
`order_index`, and keeps the invariant. -/
theorem C7_shuffle_current_first_witness :
    (samplePlaylist.shuffle id).order.head? = samplePlaylist.order[1]? ∧
    (samplePlaylist.shuffle id).order_index = some 0 ∧
    (samplePlaylist.shuffle id).Invariant :=
  (C7_shuffle_current_first samplePlaylist id (fun l => List.Perm.refl l)
    ⟨by decide, by intro k hk; injection hk with h; subst h; decide⟩).1 1 rfl

/-- C8: under the permutation invariant, `unshuffle()` right after
`shuffle()` restores `order` to the identity permutation `[0..len)`, and
when a song was playing before the shuffle the current song afterwards
has the same contents index; with nothing playing, `order_index` stays
`None`. -/
theorem C8_unshuffle_after_shuffle (p : DiziPlaylist)
    (rand : List Nat → List Nat) (hrand : ∀ l, (rand l).Perm l)
    (hinv : p.Invariant) :
    ((p.shuffle rand).unshuffle).order = List.range p.contents.length ∧
    (∀ k, p.order_index = some k →
      ((p.shuffle rand).unshuffle).current_song.map DiziPlaylistEntry.entry_index
        = p.current_song.map DiziPlaylistEntry.entry_index) ∧
    (p.order_index = none → ((p.shuffle rand).unshuffle).order_index = none) := by
  obtain ⟨hperm, hidx⟩ := hinv
  cases hO : p.order_index with
  | none =>
    have hcur : p.current_song = none := by
      simp [DiziPlaylist.current_song, hO]
    have hshuffle : p.shuffle rand
        = { p with order := rand (List.range p.len) } := by
      simp [DiziPlaylist.shuffle, hcur]
    refine ⟨?_, ?_, ?_⟩
    · simp [DiziPlaylist.unshuffle, hshuffle, hO, DiziPlaylist.len]
    · intro k hk
      exact Option.noConfusion hk
    · intro _
      simp [DiziPlaylist.unshuffle, hshuffle, hO]
  | some k =>
    have hklt : k < p.order.length := hidx k hO
    have hOrderK : p.order[k]? = some p.order[k] :=
      List.getElem?_eq_getElem hklt
    have heMem : p.order[k] ∈ p.order := List.getElem_mem hklt
    have heLt : p.order[k] < p.contents.length :=
      List.mem_range.mp (hperm.mem_iff.mp heMem)
    have hContents : p.contents[(p.order[k])]? = some p.contents[(p.order[k])] :=
      List.getElem?_eq_getElem heLt
    have hcur : p.current_song
        = some { entry_index := p.order[k], order_index := k,
                 entry := p.contents[(p.order[k])] } := by
      simp [DiziPlaylist.current_song, hO, hOrderK, hContents]
    have hshuffle : p.shuffle rand
        = { p with
            order := p.order[k] ::
              rand ((List.range p.len).eraseIdx p.order[k])
            order_index := some 0 } := by
      simp [DiziPlaylist.shuffle, hcur]
    have hr : (p.shuffle rand).unshuffle
        = { contents := p.contents, order := List.range p.contents.length,
            order_index := some p.order[k] } := by
      rw [hshuffle]
      simp [DiziPlaylist.unshuffle, DiziPlaylist.len]
    refine ⟨by rw [hr], ?_, ?_⟩
    · intro k2 hk2
      have hRange : (List.range p.contents.length)[(p.order[k])]?
          = some p.order[k] := by
        rw [List.getElem?_eq_getElem (by simpa using heLt)]
        simp
      rw [hr, hcur]
      simp [DiziPlaylist.current_song, hRange, hContents]
    · intro hnone
      exact Option.noConfusion hnone

/-- C8 (witness): shuffling then unshuffling `samplePlaylist` with the
identity reordering restores the identity order and keeps the playing
song's contents index current. -/
theorem C8_unshuffle_after_shuffle_witness :
    ((samplePlaylist.shuffle id).unshuffle).order
      = List.range samplePlaylist.contents.length ∧
    ((samplePlaylist.shuffle id).unshuffle).current_song.map
        DiziPlaylistEntry.entry_index
      = samplePlaylist.current_song.map DiziPlaylistEntry.entry_index := by
  have h := C8_unshuffle_after_shuffle samplePlaylist id
    (fun l => List.Perm.refl l)
    ⟨by decide, by intro k hk; injection hk with h2; subst h2; decide⟩
  exact ⟨h.1, h.2.1 1 rfl⟩

/-- C2: the claim restricts advancement to the active queue
(`for step in 1..len(active)`), but the source loop runs
`for i in 1..max(len(dirlist), len(playlist))`. On `doneCtxSample`
(active playlist of length 2, inactive directory list of length 4, only
entry 0 playable, entry 0 just finished) the source loop reaches step 2,
wraps around `(0 + 2) % 2 = 0`, and replays the just-finished entry 0,
while the claim's loop tries only step 1 and plays nothing. -/
theorem C2_advancement_loop_bound :
    process_done_song doneCtxSample (fun n => n == 0) (some 0) = some 0 ∧
    spec_advance doneCtxSample (fun n => n == 0) (some 0) = none := by
  decide

/-- C5 (counterexample): on a three-sample buffer with the cursor at 2
and a four-slot data slice, the invocation reaches the end of the
buffer, but the final cursor is `4`: the end-of-buffer branch sets it to
`3 = len` and the post-loop `*offset += i` then adds the one sample
copied, overshooting the end instead of clamping to it. -/
theorem C5_cursor_overshoots_end :
    (callback_f32 [1, 2, 3] { cursor := 2, volume := 1 } none 4).1.cursor = 4 ∧
    (4 : Nat) ≠ ([1, 2, 3] : List ℚ).length ∧
    (callback_f32 [1, 2, 3] { cursor := 2, volume := 1 } none 4).2.2 = 1 := by
  refine ⟨by decide, by decide, by decide⟩

/-- C5 (amended): an invocation starting at or past the end returns
early, leaving the cursor unchanged and emitting nothing; an invocation
whose data slice fits in the remaining buffer advances the cursor by the
slice length and emits nothing (even when this lands exactly on the
end); an invocation that reaches the end mid-slice emits exactly one
`StreamEnded` and leaves the cursor at `len + (len - old cursor)` —
past the end, not clamped to it. Hence at most one `StreamEnded` is
emitted across the invocations of a track, and none at all when the end
coincides with a data-slice boundary. -/
theorem C5_stream_end_behavior (packets : List ℚ) (st : CallbackState)
    (msg : Option CallbackMsg) (dataLen : Nat) :
    (packets.length ≤ st.cursor →
      (callback_f32 packets st msg dataLen).1.cursor = st.cursor ∧
      (callback_f32 packets st msg dataLen).2.2 = 0) ∧
    (st.cursor < packets.length → st.cursor + dataLen ≤ packets.length →
      (callback_f32 packets st msg dataLen).1.cursor = st.cursor + dataLen ∧
      (callback_f32 packets st msg dataLen).2.2 = 0) ∧
    (st.cursor < packets.length → packets.length < st.cursor + dataLen →
      (callback_f32 packets st msg dataLen).1.cursor
        = packets.length + (packets.length - st.cursor) ∧
      (callback_f32 packets st msg dataLen).2.2 = 1) := by
  refine ⟨?_, ?_, ?_⟩
  · intro h
    simp [callback_f32, h]
  · intro h1 h2
    have hlt : ¬ packets.length ≤ st.cursor := by omega
    simp only [callback_f32, if_neg hlt]
    rw [writeSamples_no_end packets _ st.cursor dataLen 0 (by omega)]
    simp
  · intro h1 h2
    have hlt : ¬ packets.length ≤ st.cursor := by omega
    simp only [callback_f32, if_neg hlt]
    rw [writeSamples_end packets _ st.cursor dataLen 0 (by omega) (by omega)]
    simp

/-- C5 (witness): the amended statement at concrete inputs: an exactly
aligned final slice lands the cursor on the end with no event, and a
mid-slice end overshoots with exactly one event. -/
theorem C5_stream_end_behavior_witness :
    ((callback_f32 [1, 2, 3] { cursor := 0, volume := 1 } none 3).1.cursor = 3 ∧
     (callback_f32 [1, 2, 3] { cursor := 0, volume := 1 } none 3).2.2 = 0) ∧
    ((callback_f32 [1, 2, 3] { cursor := 2, volume := 1 } none 4).1.cursor
        = 3 + (3 - 2) ∧
     (callback_f32 [1, 2, 3] { cursor := 2, volume := 1 } none 4).2.2 = 1) :=
  ⟨(C5_stream_end_behavior [1, 2, 3] { cursor := 0, volume := 1 } none 3).2.1
      (by decide) (by decide),
   (C5_stream_end_behavior [1, 2, 3] { cursor := 2, volume := 1 } none 4).2.2
      (by decide) (by decide)⟩
